import Mathlib

/-!
Verification of the Mornoningo server (src/server) against its specification.

The Python sources are shallowly embedded below:
* `file_parsers.normalize_text` as `normalizeText` over `List Char`,
* the window planning loop of `main._summarize_windows` as `windowPlan`,
* the quiz response parser `main._parse_quiz_payload` as `parseQuizPayload`,
* the learning-note pipeline `main.generate_learning_note` (together with
  `generate_with_gemini`, `_summarize_single_page`, `_parse_page_summary` and
  `_summarize_windows`) as `generateLearningNote`, parameterized by an
  environment `Env` describing the remote generative model's responses and the
  behaviour of the standard library JSON decoder on those response strings,
* `learning_note_storage.LearningNoteStorage.read` as `storageRead`.

Python strings are modelled as `String`/`List Char` (Python indexes and slices
by code point, as Lean's `String.take`/`String.length` do), Python ints as
`Int`/`Nat` (Python integers are unbounded, so no wrap-around modelling is
needed), and JSON values as the inductive `Json` below.
-/

/-- The ASCII whitespace characters stripped by Python's `str.strip()` /
`str.rstrip()` (space, tab, newline, carriage return, vertical tab, form
feed).  `str.strip` also strips some further Unicode whitespace; the texts
manipulated by this repository only involve the ASCII ones, and every theorem
below is insensitive to the exact whitespace set as long as it is used
consistently. -/
def isPyWs (c : Char) : Bool :=
  c = ' ' || c = '\t' || c = '\n' || c = '\r' || c = '\x0b' || c = '\x0c'

/-- Python `str.strip()` on a list of characters: drop whitespace from the
front, then from the back. -/
def pyStrip (l : List Char) : List Char :=
  ((l.dropWhile isPyWs).reverse.dropWhile isPyWs).reverse

/-- Python `str.strip()` on a `String`. -/
def pyStripS (s : String) : String :=
  (pyStrip s.toList).asString

/-- Python `str.rstrip()` on a `String` (used by `_clip_text`). -/
def pyRStripS (s : String) : String :=
  (s.toList.reverse.dropWhile isPyWs).reverse.asString

/-- `file_parsers.normalize_text`, step 1:
`cleaned = (text or "").replace("\x00", " ")`. -/
def replaceNul (l : List Char) : List Char :=
  l.map (fun c => if c = '\x00' then ' ' else c)

/-- `file_parsers.normalize_text`, step 2: `re.sub(r"\r+", "\n", cleaned)`.
The regex replaces every maximal run of carriage returns by a single newline;
the Boolean argument records whether the previous character was part of a
`'\r'` run (so only the first `'\r'` of a run emits the replacement). -/
def subCR : Bool → List Char → List Char
  | _, [] => []
  | prev, c :: rest =>
    if c = '\r' then
      (if prev then subCR true rest else '\n' :: subCR true rest)
    else c :: subCR false rest

/-- `file_parsers.normalize_text`, step 3: `re.sub(r"\n{3,}", "\n\n", cleaned)`.
The regex rewrites every maximal run of `k ≥ 3` newlines to exactly two
newlines and leaves shorter runs alone, i.e. each maximal run of `k` newlines
becomes `min k 2` newlines; the counter argument is the number of newlines of
the current run already read (only the first two are kept). -/
def subLF : Nat → List Char → List Char
  | _, [] => []
  | cnt, c :: rest =>
    if c = '\n' then
      (if cnt < 2 then '\n' :: subLF (cnt + 1) rest else subLF (cnt + 1) rest)
    else c :: subLF 0 rest

/-- `file_parsers.normalize_text` on a list of characters. -/
def normalizeTextL (l : List Char) : List Char :=
  pyStrip (subLF 0 (subCR false (replaceNul l)))

/-- `file_parsers.normalize_text`: NUL replacement, carriage-return collapsing,
newline-run reduction, outer strip. -/
def normalizeText (s : String) : String :=
  (normalizeTextL s.toList).asString

/-! ### The window planner of `_summarize_windows` (main.py lines 441-455) -/

/-- One iteration of the `for idx in range(len(pages))` loop of
`_summarize_windows`, restricted to its window planning effect.  The state is
the pair (emitted `(start, end)` pairs in order, `seen` set represented as a
list).  `start = max(0, idx - left)` is Nat subtraction (which truncates at 0
exactly like the `max`), `end = min(len(pages), idx + right + 1)`; a window
with `end - start <= 0` is skipped, as is a `(start, end)` pair already seen. -/
def planStep (n left right : Nat) (st : List (Nat × Nat) × List (Nat × Nat))
    (idx : Nat) : List (Nat × Nat) × List (Nat × Nat) :=
  let s := idx - left
  let e := min n (idx + right + 1)
  if e ≤ s then st
  else if (s, e) ∈ st.2 then st
  else (st.1 ++ [(s, e)], (s, e) :: st.2)

/-- The `(start, end)` pairs emitted by `_summarize_windows` for `n` pages and
requested window size `w`, in emission order: `clamped_size = max(1, min(w, n))`,
`left = clamped_size // 2`, `right = clamped_size - left - 1`, then the loop
over `idx in range(n)`.  (`_summarize_windows` returns `[]` for an empty page
list before any of this; the final `windows.sort` on line 467 only reorders
the emitted windows and does not change the emitted set.) -/
def windowPlan (n w : Nat) : List (Nat × Nat) :=
  if n = 0 then []
  else
    let clamped := max 1 (min w n)
    let left := clamped / 2
    let right := clamped - left - 1
    ((List.range n).foldl (planStep n left right) ([], [])).1

example : windowPlan 5 5 = [(0, 3), (0, 4), (0, 5), (1, 5), (2, 5)] := by decide
example : windowPlan 6 3 = [(0, 2), (0, 3), (1, 4), (2, 5), (3, 6), (4, 6)] := by decide
example : windowPlan 1 7 = [(0, 1)] := by decide

/-! ### JSON values, Python truthiness and coercions -/

/-- JSON values as produced by Python's `json.loads`.  Numbers are modelled as
(unbounded) integers; JSON floats play no role in any behaviour verified
below.  Python dicts are association lists without duplicate keys; `null` is
Python's `None`, which is also how an absent key is reported by `dict.get`. -/
inductive Json where
  | null : Json
  | bool : Bool → Json
  | num : Int → Json
  | str : String → Json
  | arr : List Json → Json
  | obj : List (String × Json) → Json

/-- Python truthiness (`bool(x)`) of a JSON value: `None`, `False`, `0`, `""`,
`[]` and `{}` are falsy, everything else is truthy. -/
def pyTruthy : Json → Bool
  | .null => false
  | .bool b => b
  | .num n => n ≠ 0
  | .str s => s ≠ ""
  | .arr xs => !xs.isEmpty
  | .obj fs => !fs.isEmpty

/-- Python `a or b` on JSON values: `a` if truthy, else `b`. -/
def pyOr (a b : Json) : Json :=
  if pyTruthy a then a else b

/-- Python `d.get(key)` (default `None`) on a dict's association list. -/
def jGet (fs : List (String × Json)) (key : String) : Json :=
  (List.lookup key fs).getD Json.null

/-- Python `d.get(key, default)` on a dict's association list. -/
def jGetD (fs : List (String × Json)) (key : String) (default : Json) : Json :=
  (List.lookup key fs).getD default

mutual

/-- Python `repr` of a JSON value (which is what `str` delegates to for
containers): `None`/`True`/`False`, decimal integers, strings in single
quotes, `[...]` lists and `{...}` dicts.  String escaping inside `repr` is not
modelled (no verified behaviour depends on it). -/
def pyRepr : Json → String
  | .null => "None"
  | .bool true => "True"
  | .bool false => "False"
  | .num n => toString n
  | .str s => "\x27" ++ s ++ "\x27"
  | .arr xs => "[" ++ pyReprList xs ++ "]"
  | .obj fs => "\x7b" ++ pyReprObj fs ++ "\x7d"

/-- Comma-separated `repr`s of a list's elements. -/
def pyReprList : List Json → String
  | [] => ""
  | [j] => pyRepr j
  | j :: rest => pyRepr j ++ ", " ++ pyReprList rest

/-- Comma-separated `'key': repr` pairs of a dict's items. -/
def pyReprObj : List (String × Json) → String
  | [] => ""
  | [(k, v)] => "\x27" ++ k ++ "\x27: " ++ pyRepr v
  | (k, v) :: rest => "\x27" ++ k ++ "\x27: " ++ pyRepr v ++ ", " ++ pyReprObj rest

end

/-- Python `str(x)` of a JSON value: the string itself for strings, `repr`
otherwise. -/
def pyStr : Json → String
  | .str s => s
  | j => pyRepr j

/-- Helper for `int(str)`: a non-empty all-digit run parsed as a natural
number. -/
def digitsToNat? (l : List Char) : Option Nat :=
  if l.isEmpty then none
  else if l.all (fun c => c.isDigit) then
    some (l.foldl (fun acc c => acc * 10 + (c.toNat - 48)) 0)
  else none

/-- Python `int(s)` on a string: surrounding whitespace is ignored, an
optional single `+`/`-` sign is allowed, the rest must be digits, otherwise
`ValueError` (`none`).  (Python additionally allows `_` separators between
digits; no behaviour verified below depends on them.) -/
def pyIntOfString (s : String) : Option Int :=
  match pyStrip s.toList with
  | '+' :: ds => (digitsToNat? ds).map (fun n => (n : Int))
  | '-' :: ds => (digitsToNat? ds).map (fun n => -(n : Int))
  | ds => (digitsToNat? ds).map (fun n => (n : Int))

/-- Python `int(x)` on a JSON value: ints are returned as is, bools become
0/1, strings are parsed, and `None`/lists/dicts raise (`none`, a
`TypeError`), as does a non-numeric string (`ValueError`). -/
def pyInt : Json → Option Int
  | .num n => some n
  | .bool b => some (if b then 1 else 0)
  | .str s => pyIntOfString s
  | _ => none

/-- Python `str.splitlines()` restricted to the ASCII line boundaries
`\n`, `\r`, `\r\n`, `\v`, `\f` (Python also splits at some further Unicode
boundaries; none appear in the verified behaviours).  No trailing empty line
is produced for a terminal line break, and `"".splitlines() == []`. -/
def splitlinesGo : List Char → List Char → List String
  | cur, [] => if cur.isEmpty then [] else [cur.reverse.asString]
  | cur, '\r' :: '\n' :: rest => cur.reverse.asString :: splitlinesGo [] rest
  | cur, c :: rest =>
    if c = '\n' || c = '\r' || c = '\x0b' || c = '\x0c' then
      cur.reverse.asString :: splitlinesGo [] rest
    else splitlinesGo (c :: cur) rest

/-- Python `s.splitlines()`. -/
def pySplitlines (s : String) : List String :=
  splitlinesGo [] s.toList

example : pySplitlines "a\nb\n" = ["a", "b"] := by decide
example : pySplitlines "a\r\n\nb" = ["a", "", "b"] := by decide
example : pySplitlines "" = [] := by decide
example : pyIntOfString " -42 " = some (-42) := by decide
example : pyIntOfString "abc" = none := by decide

/-! ### The quiz payload parser `_parse_quiz_payload` (main.py lines 335-381) -/

/-- The exceptions the embedded code can raise: FastAPI `HTTPException`s (with
their status code and `detail` payload, which the code sometimes sets to a
dict) and Python exceptions that escape uncaught (`AttributeError` from
calling `.get` on a non-dict). -/
inductive PyErr where
  | http : Nat → Json → PyErr
  | attributeError : PyErr

/-- One parsed quiz question, as appended by the loop of
`_parse_quiz_payload`: the `question` and `explanation` fields keep whatever
JSON value the item supplied (or the fallback), `options` is the truncated
option list, `correctIndex` the coerced and clamped index. -/
structure Question where
  question : Json
  options : List Json
  correctIndex : Int
  explanation : Json

/-- The `for idx, item in enumerate(questions_raw)` loop of
`_parse_quiz_payload` (lines 349-368).  Per item: `options = item.get("options")
or item.get("opts") or []`, non-list options are replaced by `[]`, items with
fewer than 4 options are skipped, `correct_index = item.get("correctIndex",
item.get("correct"))` is coerced with `int(...)` defaulting to 0 on
`TypeError`/`ValueError`, the question text falls back over `question`, `q`
and `f"문제 {idx + 1}"`, and the appended record truncates `options` to 4 and
clamps the index with `max(0, min(correct_index, len(options[:4]) - 1))`.
A non-dict item raises `AttributeError` at `item.get`. -/
def parseQuizItems : Nat → List Json → Except PyErr (List Question)
  | _, [] => .ok []
  | idx, item :: rest =>
    match item with
    | .obj fs =>
      let options0 := pyOr (jGet fs "options") (pyOr (jGet fs "opts") (.arr []))
      let options := match options0 with
        | .arr xs => xs
        | _ => ([] : List Json)
      if options.length < 4 then parseQuizItems (idx + 1) rest
      else
        let correctRaw :=
          if (List.lookup "correctIndex" fs).isSome then jGet fs "correctIndex"
          else jGet fs "correct"
        let correctIndex := (pyInt correctRaw).getD 0
        let questionText :=
          pyOr (jGet fs "question") (pyOr (jGet fs "q")
            (.str ("문제 " ++ toString (idx + 1))))
        match parseQuizItems (idx + 1) rest with
        | .error er => .error er
        | .ok tail =>
          .ok (⟨questionText, options.take 4,
                max 0 (min correctIndex ((options.take 4).length - 1 : Int)),
                jGetD fs "explanation" (.str "")⟩ :: tail)
    | _ => .error .attributeError

/-- The `notes` extraction of `_parse_quiz_payload` (lines 373-379): only a
dict payload is inspected; a string `notes` is split into non-empty stripped
lines, a list is stringified elementwise (empty strings filtered out), and
anything else yields `[]`. -/
def parseQuizNotes (data : Json) : List String :=
  match data with
  | .obj fs =>
    match jGet fs "notes" with
    | .str s => ((pySplitlines s).map pyStripS).filter (fun line => line ≠ "")
    | .arr xs => (xs.map (fun item => pyStripS (pyStr item))).filter (fun t => t ≠ "")
    | _ => []
  | _ => []

/-- `_parse_quiz_payload` after `json.loads` (the decoding of the raw model
output into a JSON value): choose the questions container (a dict's
`questions` list, or a bare top-level list, otherwise a 500), run the
per-item loop, fail with a 500 if no valid question remains, and attach the
parsed notes. -/
def parseQuizPayload (data : Json) : Except PyErr (List Question × List String) :=
  match
    (match data with
     | .obj fs =>
       match List.lookup "questions" fs with
       | some (.arr xs) => Except.ok xs
       | _ => Except.error (PyErr.http 500 (.str "questions 배열이 포함된 JSON이 필요합니다."))
     | .arr xs => Except.ok xs
     | _ => Except.error (PyErr.http 500 (.str "questions 배열이 포함된 JSON이 필요합니다.")))
  with
  | .error er => .error er
  | .ok questionsRaw =>
    match parseQuizItems 0 questionsRaw with
    | .error er => .error er
    | .ok questions =>
      if questions.isEmpty then
        .error (.http 500 (.str "생성된 문제를 찾을 수 없습니다."))
      else .ok (questions, parseQuizNotes data)

/-! ### The learning-note pipeline (main.py lines 54-76, 204-251, 384-521) -/

/-- `MAX_PAGE_PROMPT_CHARS` (main.py line 50). -/
def MAX_PAGE_PROMPT_CHARS : Nat := 3500

/-- `MAX_PAGE_TEXT_CHARS` (main.py line 51). -/
def MAX_PAGE_TEXT_CHARS : Nat := 6000

/-- The environment of one note-generation request: the behaviour of the
external collaborators.  `resp k` is the outcome of the `k`-th remote
`model.generate_content` call (counting from 0, in the order the request
issues them): `.error msg` when the call raises an exception rendered as
`msg` (transport failure, or the `RuntimeError` below), `.ok t` when the
response carries text `t`.  `loads` is the standard library `json.loads`
restricted to this request's response strings: `none` when it raises
`json.JSONDecodeError`, `some v` when it returns the value `v`. -/
structure Env where
  resp : Nat → Except String String
  loads : String → Option Json

/-- `generate_with_gemini` (lines 62-76) at the `k`-th remote call: a raised
exception or falsy response text becomes a 500 `HTTPException` whose detail
interpolates the exception (`raise RuntimeError("AI 응답에 텍스트가 없습니다.")`
for missing text); otherwise the text is returned with Markdown code-fence
decorations removed and surrounding whitespace stripped.  The second
component is the index of the next remote call. -/
def generateWithGemini (e : Env) (k : Nat) (_prompt : String) :
    Except PyErr String × Nat :=
  match e.resp k with
  | .error msg =>
    (.error (.http 500 (.str ("Gemini 호출 실패: " ++ msg))), k + 1)
  | .ok t =>
    if t = "" then
      (.error (.http 500 (.str "Gemini 호출 실패: AI 응답에 텍스트가 없습니다.")), k + 1)
    else
      (.ok (pyStripS ((t.replace "```json" "").replace "```" "")), k + 1)

/-- A parsed per-page summary (`_parse_page_summary`'s return dict). -/
structure PageSummary where
  outline : String
  keyPoints : List String
  studyQuestion : String

/-- `_parse_page_summary` (lines 413-434) after `json.loads`: `outline` and
`studyQuestion` fall back over their field aliases and are stringified and
stripped; `keyPoints` falls back over `keyPoints`/`bullets`/`details`, a
string is split into lines, a list is stringified elementwise (empty entries
dropped), anything else gives `[]`, and the result is truncated to 5 entries.
A non-dict payload raises `AttributeError` at `data.get`. -/
def parsePageSummary (data : Json) : Except PyErr PageSummary :=
  match data with
  | .obj fs =>
    let outline := pyStripS (pyStr (pyOr (jGet fs "outline") (pyOr (jGet fs "summary") (.str ""))))
    let keyPointsRaw := pyOr (jGet fs "keyPoints") (pyOr (jGet fs "bullets")
      (pyOr (jGet fs "details") (.arr [])))
    let keyPoints := match keyPointsRaw with
      | .str s => ((pySplitlines s).map pyStripS).filter (fun item => item ≠ "")
      | .arr xs => (xs.map (fun item => pyStripS (pyStr item))).filter (fun t => t ≠ "")
      | _ => ([] : List String)
    let studyQuestion := pyStripS (pyStr (pyOr (jGet fs "studyQuestion") (pyOr (jGet fs "quiz") (.str ""))))
    .ok ⟨outline, keyPoints.take 5, studyQuestion⟩
  | _ => .error .attributeError

/-- `_build_page_summary_prompt` (lines 390-410): the fixed Korean template
with the page label and clipped text interpolated, stripped. -/
def buildPageSummaryPrompt (label text : String) : String :=
  pyStripS ("\n당신은 대학 강의 슬라이드를 요약하는 조교입니다. 주어진 페이지 내용을 바탕으로 구체적 개요를 출력하세요.\n\n출력 형식(JSON만 허용):\n\x7b\n  \"outline\": \"두세 문장으로 페이지 전체 요약\",\n  \"keyPoints\": [\"핵심 포인트1\", \"핵심 포인트2\", \"핵심 포인트3\"],\n  \"studyQuestion\": \"복습할 때 스스로에게 던질 질문\"\n\x7d\n\n지침:\n- 한국어 사용\n- 실제 페이지에서 확인할 수 있는 사실, 개념, 숫자를 포함\n- keyPoints는 3~5개 bullet, 각 항목은 1문장\n- studyQuestion은 한 문장으로 마무리\n\n페이지: " ++ label ++ "\n본문:\n" ++ text ++ "\n")

/-- `_summarize_single_page` (lines 384-387): build the prompt, make one
remote call, `json.loads` the cleaned response (a decode failure is a 500
with the raw text attached), and parse the summary. -/
def summarizeSinglePage (e : Env) (k : Nat) (label text : String) :
    Except PyErr PageSummary × Nat :=
  match generateWithGemini e k (buildPageSummaryPrompt label text) with
  | (.error er, k') => (.error er, k')
  | (.ok raw, k') =>
    match e.loads raw with
    | none =>
      (.error (.http 500 (.obj [("error", .str "페이지 요약 JSON 파싱 실패"), ("raw", .str raw)])), k')
    | some data =>
      match parsePageSummary data with
      | .error er => (.error er, k')
      | .ok summary => (.ok summary, k')

/-- One page chunk as produced by the page extractor
(`extract_pdf_pages` / `extract_pptx_slides`): a 1-based index, a label like
`"Page 3"`, and the normalized page text. -/
structure Chunk where
  index : Nat
  label : String
  text : String

/-- One entry of the `pages` list built by `generate_learning_note`
(lines 224-231): the chunk's index and label, the clipped stripped text, and
the parsed per-page summary. -/
structure NotePage where
  index : Nat
  label : String
  text : String
  summary : PageSummary

/-- `_clip_text` (lines 509-513). -/
def clipText (value : String) (limit : Nat) : String :=
  let text := pyStripS value
  if text.length ≤ limit then text
  else pyRStripS (text.take limit) ++ " …"

/-- The `for chunk in chunks` loop of `generate_learning_note`
(lines 218-231): pages whose stripped text is empty are skipped; each
remaining chunk costs one remote summarization call (the text clipped to
`MAX_PAGE_PROMPT_CHARS` for the prompt, to `MAX_PAGE_TEXT_CHARS` for the
stored record); the first failure aborts the request. -/
def buildPagesLoop (e : Env) : Nat → List Chunk → Except PyErr (List NotePage) × Nat
  | k, [] => (.ok [], k)
  | k, c :: rest =>
    let text := pyStripS c.text
    if text = "" then buildPagesLoop e k rest
    else
      match summarizeSinglePage e k c.label (text.take MAX_PAGE_PROMPT_CHARS) with
      | (.error er, k') => (.error er, k')
      | (.ok summary, k') =>
        match buildPagesLoop e k' rest with
        | (.error er, k'') => (.error er, k'')
        | (.ok pages, k'') =>
          (.ok (⟨c.index, c.label, clipText text MAX_PAGE_TEXT_CHARS, summary⟩ :: pages), k'')

/-- One emitted window (the dict appended on lines 458-465). -/
structure Window where
  startPage : Nat
  endPage : Nat
  pageIndexes : List Nat
  markdown : String
deriving DecidableEq

/-- `_build_window_prompt` (lines 477-501): each page contributes its label,
outline, non-empty key points as a bulleted block, and study question; the
parts are joined and embedded in the fixed merge instruction template. -/
def buildWindowPrompt (windowPages : List NotePage) : String :=
  let parts := windowPages.map (fun page =>
    let bulletText := String.intercalate "\n"
      ((page.summary.keyPoints.filter (fun item => item ≠ "")).map (fun item => "- " ++ item))
    "페이지 p" ++ toString page.index ++ " (" ++ page.label ++ "):\n" ++
    "개요: " ++ page.summary.outline ++ "\n" ++
    "핵심:\n" ++ bulletText ++ "\n" ++
    "질문: " ++ page.summary.studyQuestion)
  let joined := String.intercalate "\n\n" parts
  pyStripS ("\n연속된 학습 자료 페이지 요약을 입력으로 받습니다. 중복되는 설명을 통합하고 Markdown으로 정리하세요.\n\n규칙:\n- 각 섹션 제목은 `### Pages 시작-끝` 형식\n- 불릿마다 기여한 페이지를 괄호로 표기 (예: (p2,p3))\n- 앞뒤 페이지에서 이미 다룬 내용은 제거하거나 묶어서 하나의 bullet로\n- Markdown 이외 텍스트를 추가하지 마세요\n\n페이지 요약:\n" ++ joined ++ "\n")

/-- The `for idx in range(len(pages))` loop of `_summarize_windows`
(lines 447-465), with the already planned `(start, end)` arithmetic of
`planStep` interleaved with the per-window remote merge call
(`_summarize_window_block`, which strips the already cleaned response).
The `window_pages[0]` / `window_pages[-1]` accesses would raise `IndexError`
on an empty slice; the `end - start <= 0` guard makes that unreachable, and
the model maps it to an uncaught exception for faithfulness. -/
def windowLoop (e : Env) (pages : List NotePage) (n left right : Nat) :
    Nat → List Window → List (Nat × Nat) → List Nat → Except PyErr (List Window) × Nat
  | k, ws, _, [] => (.ok ws, k)
  | k, ws, seen, idx :: rest =>
    let s := idx - left
    let t := min n (idx + right + 1)
    if t ≤ s then windowLoop e pages n left right k ws seen rest
    else if (s, t) ∈ seen then windowLoop e pages n left right k ws seen rest
    else
      let windowPages := (pages.drop s).take (t - s)
      match windowPages with
      | [] => (.error .attributeError, k)
      | p0 :: tl =>
        match generateWithGemini e k (buildWindowPrompt windowPages) with
        | (.error er, k') => (.error er, k')
        | (.ok raw, k') =>
          let w : Window :=
            ⟨p0.index, ((p0 :: tl).getLastD p0).index,
             windowPages.map (fun p => p.index), pyStripS raw⟩
          windowLoop e pages n left right k' (ws ++ [w]) ((s, t) :: seen) rest

/-- Stable insertion of a window into a list sorted by `startPage` (the
window goes before the first strictly larger start, so equal starts keep
their original order, as Python's stable `list.sort` does). -/
def insertWindow (w : Window) : List Window → List Window
  | [] => [w]
  | x :: xs => if x.startPage < w.startPage then x :: insertWindow w xs else w :: x :: xs

/-- `windows.sort(key=lambda item: item["startPage"])` (line 467) as a stable
insertion sort. -/
def sortWindows : List Window → List Window
  | [] => []
  | w :: ws => insertWindow w (sortWindows ws)

/-- `_summarize_windows` (lines 437-468): empty page list short-circuits,
otherwise the clamped window geometry is computed, the loop runs over all
anchor positions, and the emitted windows are sorted by `startPage`. -/
def summarizeWindows (e : Env) (k : Nat) (pages : List NotePage) (windowSize : Nat) :
    Except PyErr (List Window) × Nat :=
  if pages.isEmpty then (.ok [], k)
  else
    let n := pages.length
    let clamped := max 1 (min windowSize n)
    let left := clamped / 2
    let right := clamped - left - 1
    match windowLoop e pages n left right k [] [] (List.range n) with
    | (.error er, k') => (.error er, k')
    | (.ok ws, k') => (.ok (sortWindows ws), k')

/-- `_merge_markdown` (lines 504-506). -/
def mergeMarkdown (windows : List Window) : String :=
  let parts := (windows.filter (fun item => item.markdown ≠ "")).map
    (fun item => pyStripS item.markdown)
  String.intercalate "\n\n" (parts.filter (fun part => part ≠ ""))

/-- The JSON encoding of one stored page record (the dict built on
lines 224-231, with the summary dict of `_parse_page_summary`). -/
def pageJson (p : NotePage) : Json :=
  .obj [("index", .num (p.index : Int)), ("label", .str p.label), ("text", .str p.text),
        ("summary", .obj [("outline", .str p.summary.outline),
                          ("keyPoints", .arr (p.summary.keyPoints.map Json.str)),
                          ("studyQuestion", .str p.summary.studyQuestion)])]

/-- The JSON encoding of one stored window record (the dict built on
lines 458-465). -/
def windowJson (w : Window) : Json :=
  .obj [("startPage", .num (w.startPage : Int)), ("endPage", .num (w.endPage : Int)),
        ("pageIndexes", .arr (w.pageIndexes.map (fun i => Json.num (i : Int)))),
        ("markdown", .str w.markdown)]

/-- `created_at = (existing or {}).get("createdAt")` (line 239): a falsy or
absent prior note yields `None`; a truthy non-dict prior value raises
`AttributeError` at `.get`. -/
def getCreatedAt (existing : Option Json) : Except PyErr (Option Json) :=
  match existing with
  | none => .ok none
  | some j =>
    if pyTruthy j then
      match j with
      | .obj fs => .ok (List.lookup "createdAt" fs)
      | _ => .error .attributeError
    else .ok none

/-- The note record dict built on lines 240-249: `createdAt` is
`created_at or now` (the prior value when truthy, else the current
timestamp), `updatedAt` is always `now`. -/
def noteRecordJson (fileId : String) (windowSize : Nat) (now : String)
    (createdAt? : Option Json) (pages : List NotePage) (windows : List Window)
    (markdown : String) : Json :=
  let createdAt := match createdAt? with
    | some v => if pyTruthy v then v else .str now
    | none => .str now
  .obj [("fileId", .str fileId), ("createdAt", createdAt), ("updatedAt", .str now),
        ("pageCount", .num (pages.length : Int)), ("windowSize", .num (windowSize : Int)),
        ("pages", .arr (pages.map pageJson)), ("windows", .arr (windows.map windowJson)),
        ("markdown", .str markdown)]

/-- The generation path of `generate_learning_note` (lines 210-249, i.e.
everything between the cache check and the save): `file` is the outcome of
the upload-directory lookup plus page extraction (`none` models a missing
file, rejected with a 404 before any remote call; an unsupported extension is
likewise rejected before any remote call and is not modelled separately),
empty chunk lists and all-empty page texts are rejected with a 400, then the
per-page summaries, the window merge, the markdown concatenation and the
`createdAt` bookkeeping produce the record.  The second component is the
total number of remote calls made. -/
def glnCore (e : Env) (fileId : String) (windowSize : Nat) (existing : Option Json)
    (file : Option (List Chunk)) (now : String) : Except PyErr Json × Nat :=
  match file with
  | none => (.error (.http 404 (.str "업로드된 파일을 찾을 수 없습니다.")), 0)
  | some chunks =>
    if chunks.isEmpty then
      (.error (.http 400 (.str "문서에서 요약할 페이지를 찾을 수 없습니다.")), 0)
    else
      match buildPagesLoop e 0 chunks with
      | (.error er, k) => (.error er, k)
      | (.ok pages, k) =>
        if pages.isEmpty then
          (.error (.http 400 (.str "요약 가능한 페이지 내용이 없습니다.")), k)
        else
          match summarizeWindows e k pages windowSize with
          | (.error er, k') => (.error er, k')
          | (.ok windows, k') =>
            let mergedMd := mergeMarkdown windows
            match getCreatedAt existing with
            | .error er => (.error er, k')
            | .ok createdAt? =>
              (.ok (noteRecordJson fileId windowSize now createdAt? pages windows mergedMd), k')

/-- The observable outcome of one `generate_learning_note` request: the HTTP
result (the returned record or the raised exception), the number of remote
generate calls made, and the sequence of `learning_note_storage.save` calls
performed (as `(fileId, record)` pairs). -/
structure RunResult where
  result : Except PyErr Json
  calls : Nat
  writes : List (String × Json)

/-- The cache condition `if existing and not payload.force` (line 207). -/
def isCacheHit (existing : Option Json) (force : Bool) : Bool :=
  match existing with
  | some j => pyTruthy j && !force
  | none => false

/-- `generate_learning_note` (lines 204-251): `existing` is what
`learning_note_storage.read(payload.fileId)` returned.  A truthy stored note
is returned as-is when `force` is not set, with no remote call and no save;
otherwise the generation path runs and the record is saved exactly when every
step succeeded (every raise happens before the `save` on line 250). -/
def generateLearningNote (e : Env) (fileId : String) (windowSize : Nat) (force : Bool)
    (existing : Option Json) (file : Option (List Chunk)) (now : String) : RunResult :=
  if isCacheHit existing force then
    ⟨.ok (existing.getD Json.null), 0, []⟩
  else
    match glnCore e fileId windowSize existing file now with
    | (.error er, k) => ⟨.error er, k, []⟩
    | (.ok record, k) => ⟨.ok record, k, [(fileId, record)]⟩

/-! ### `LearningNoteStorage.read` (learning_note_storage.py lines 23-30) -/

/-- The state of the note file `read` inspects: absent, unreadable at the OS
level (`read_text` raises `OSError`), readable but not valid UTF-8
(`read_text(encoding="utf-8")` raises `UnicodeDecodeError`, which is a
`ValueError`, not an `OSError`), or readable with decoded text. -/
inductive NoteFileState where
  | missing : NoteFileState
  | osError : NoteFileState
  | badUtf8 : NoteFileState
  | content : String → NoteFileState

/-- The exceptions `LearningNoteStorage.read` can let escape. -/
inductive ReadRaise where
  | unicodeDecodeError : ReadRaise
deriving DecidableEq

/-- `LearningNoteStorage.read` (lines 23-30): a missing file is `None`; the
read-and-parse is wrapped in `try ... except (json.JSONDecodeError, OSError):
return None`, so an OS-level read failure or a JSON decode failure is also
`None`; a `UnicodeDecodeError` from decoding non-UTF-8 bytes is caught by
neither clause and propagates.  `loads` models `json.loads` on the decoded
text (`none` for a `json.JSONDecodeError`). -/
def storageRead (loads : String → Option Json) (st : NoteFileState) :
    Except ReadRaise (Option Json) :=
  match st with
  | .missing => .ok none
  | .osError => .ok none
  | .badUtf8 => .error .unicodeDecodeError
  | .content text =>
    match loads text with
    | some data => .ok (some data)
    | none => .ok none

/-! ### Field access helpers used by the theorems -/

/-- The value of a key in a JSON object (`none` for non-objects or absent
keys); used to state properties of the produced note records. -/
def jfield (j : Json) (key : String) : Option Json :=
  match j with
  | .obj fs => List.lookup key fs
  | _ => none

/-- The `pageIndexes` lists of all windows of a note record, in order
(`none` when the record does not have the produced shape). -/
def recordWindowIndexes (j : Json) : Option (List (List Int)) :=
  match jfield j "windows" with
  | some (.arr ws) => some (ws.map (fun w =>
      match jfield w "pageIndexes" with
      | some (.arr xs) => xs.map (fun x => match x with | .num n => n | _ => 0)
      | _ => []))
  | _ => none

/-- A list is a run of consecutive values (each element is its predecessor
plus one). -/
def consecRun (l : List Int) : Prop :=
  List.Chain' (fun a b => b = a + 1) l

instance (l : List Int) : Decidable (consecRun l) :=
  inferInstanceAs (Decidable (List.Chain' (fun a b => b = a + 1) l))

/-! ### The window planner: coverage and non-emptiness (claims C1, C2) -/

theorem planStep_mono (n left right : Nat) (st : List (Nat × Nat) × List (Nat × Nat))
    (idx : Nat) (x : Nat × Nat) (hx : x ∈ st.1) : x ∈ (planStep n left right st idx).1 := by
  simp only [planStep]
  split
  · exact hx
  · split
    · exact hx
    · exact List.mem_append_left _ hx

theorem foldl_planStep_mono (n left right : Nat) (l : List Nat)
    (st : List (Nat × Nat) × List (Nat × Nat)) (x : Nat × Nat) (hx : x ∈ st.1) :
    x ∈ (l.foldl (planStep n left right) st).1 := by
  induction l generalizing st with
  | nil => exact hx
  | cons a l ih => exact ih _ (planStep_mono n left right st a x hx)

/-- The planner's `seen` set and emitted list always hold the same pairs. -/
def PlanInv (st : List (Nat × Nat) × List (Nat × Nat)) : Prop :=
  ∀ x, x ∈ st.1 ↔ x ∈ st.2

theorem planStep_inv (n left right : Nat) (st : List (Nat × Nat) × List (Nat × Nat))
    (idx : Nat) (h : PlanInv st) : PlanInv (planStep n left right st idx) := by
  simp only [planStep]
  split
  · exact h
  · split
    · exact h
    · intro x
      simp only [List.mem_append, List.mem_cons, List.not_mem_nil, or_false]
      have hx := h x
      tauto

theorem foldl_planStep_inv (n left right : Nat) (l : List Nat)
    (st : List (Nat × Nat) × List (Nat × Nat)) (h : PlanInv st) :
    PlanInv (l.foldl (planStep n left right) st) := by
  induction l generalizing st with
  | nil => exact h
  | cons a l ih => exact ih _ (planStep_inv n left right st a h)

theorem planStep_bounds (n left right : Nat) (st : List (Nat × Nat) × List (Nat × Nat))
    (idx : Nat) (h : ∀ x ∈ st.1, x.1 < x.2) :
    ∀ x ∈ (planStep n left right st idx).1, x.1 < x.2 := by
  simp only [planStep]
  split
  · exact h
  · split
    · exact h
    · intro x hx
      rcases List.mem_append.1 hx with hx | hx
      · exact h x hx
      · rcases List.mem_singleton.1 hx with rfl
        dsimp only
        omega

theorem foldl_planStep_bounds (n left right : Nat) (l : List Nat)
    (st : List (Nat × Nat) × List (Nat × Nat)) (h : ∀ x ∈ st.1, x.1 < x.2) :
    ∀ x ∈ (l.foldl (planStep n left right) st).1, x.1 < x.2 := by
  induction l generalizing st with
  | nil => exact h
  | cons a l ih => exact ih _ (planStep_bounds n left right st a h)

/-- The window anchored at any position `idx < k ≤ n` is present among the
pairs emitted by the first `k` loop iterations. -/
theorem foldl_planStep_mem (n left right : Nat) :
    ∀ k, k ≤ n → ∀ idx, idx < k →
      (idx - left, min n (idx + right + 1)) ∈
        ((List.range k).foldl (planStep n left right) ([], [])).1 := by
  intro k
  induction k with
  | zero => intro _ idx h; omega
  | succ k ih =>
    intro hk idx hidx
    rw [List.range_succ, List.foldl_append, List.foldl_cons, List.foldl_nil]
    rcases Nat.lt_succ_iff_lt_or_eq.1 hidx with h | rfl
    · exact planStep_mono _ _ _ _ _ _ (ih (Nat.le_of_succ_le hk) idx h)
    · have hinv : PlanInv ((List.range idx).foldl (planStep n left right) ([], [])) :=
        foldl_planStep_inv n left right _ _ (fun x => Iff.rfl)
      have hlt : idx < min n (idx + right + 1) := by
        have : idx < n := hk
        omega
      simp only [planStep]
      split
      · omega
      · split
        · rename_i hseen
          exact (hinv _).2 hseen
        · exact List.mem_append_right _ (List.mem_singleton.2 rfl)

/-- C1: for every non-empty page sequence of length `n` and every requested
window size `w` (clamped internally to `[1, n]`), every page position in
`[0, n)` lies in the `[start, end)` range of at least one emitted window, and
every emitted window has `start < end`, i.e. contains at least one page. -/
theorem c1_window_coverage (n w : Nat) (hn : 0 < n) :
    (∀ p, p < n → ∃ se ∈ windowPlan n w, se.1 ≤ p ∧ p < se.2) ∧
    (∀ se ∈ windowPlan n w, se.1 < se.2) := by
  have hplan : windowPlan n w =
      ((List.range n).foldl (planStep n (max 1 (min w n) / 2)
        (max 1 (min w n) - max 1 (min w n) / 2 - 1)) ([], [])).1 := by
    simp [windowPlan, Nat.pos_iff_ne_zero.1 hn]
  constructor
  · intro p hp
    refine ⟨(p - max 1 (min w n) / 2,
      min n (p + (max 1 (min w n) - max 1 (min w n) / 2 - 1) + 1)), ?_, ?_, ?_⟩
    · rw [hplan]
      exact foldl_planStep_mem n _ _ n le_rfl p hp
    · exact Nat.sub_le _ _
    · dsimp only
      omega
  · intro se hse
    rw [hplan] at hse
    exact foldl_planStep_bounds _ _ _ _ _ (by intro x hx; cases hx) se hse

theorem c1_window_coverage_witness :
    (∀ p, p < 3 → ∃ se ∈ windowPlan 3 2, se.1 ≤ p ∧ p < se.2) ∧
    (∀ se ∈ windowPlan 3 2, se.1 < se.2) :=
  c1_window_coverage 3 2 (by decide)

/-- C2 counterexample: for `n = 5` pages and window size `w = 5`, the planner
does not emit exactly one window.  The anchors produce the five distinct
clamped pairs `(0,3), (0,4), (0,5), (1,5), (2,5)`, so set-deduplication of
`(start, end)` pairs removes nothing. -/
theorem c2_counterexample : (windowPlan 5 5).length ≠ 1 := by decide

/-- C2 amended: for `n = 5`, `w = 5` (`left = 2`, `right = 2`), the planner
emits five distinct windows `(0,3), (0,4), (0,5), (1,5), (2,5)` — boundary
anchors get shrunk (clamped) windows rather than collapsing onto the full
range, and only the anchor `idx = 2` yields `[0, 5)`. -/
theorem c2_amended : windowPlan 5 5 = [(0, 3), (0, 4), (0, 5), (1, 5), (2, 5)] := by
  decide

/-! ### Quiz parsing invariants (claims C3, C8) -/

/-- Every question the item loop accepts has exactly 4 options and a clamped
`correctIndex` in `[0, 3]`. -/
theorem parseQuizItems_valid (items : List Json) :
    ∀ idx qs, parseQuizItems idx items = .ok qs →
      ∀ q ∈ qs, q.options.length = 4 ∧ 0 ≤ q.correctIndex ∧ q.correctIndex ≤ 3 := by
  induction items with
  | nil =>
    intro idx qs h q hq
    simp only [parseQuizItems] at h
    cases h
    cases hq
  | cons item rest ih =>
    intro idx qs h q hq
    simp only [parseQuizItems] at h
    cases item with
    | obj fs =>
      dsimp only at h
      split at h
      · exact ih _ _ h q hq
      · rename_i hlen
        split at h
        · exact Except.noConfusion h
        · rename_i tail htail
          cases h
          rcases List.mem_cons.1 hq with rfl | hq
          · refine ⟨?_, ?_, ?_⟩
            · simp only [List.length_take]
              omega
            · exact le_max_left 0 _
            · have h4 : ((match pyOr (jGet fs "options") (pyOr (jGet fs "opts") (Json.arr [])) with
                | .arr xs => xs
                | _ => ([] : List Json)).take 4).length ≤ 4 := by
                simp only [List.length_take]
                omega
              simp only [max_le_iff]
              constructor
              · omega
              · exact le_trans (min_le_right _ _) (by omega)
          · exact ih _ _ htail q hq
    | null => exact Except.noConfusion h
    | bool b => exact Except.noConfusion h
    | num n => exact Except.noConfusion h
    | str s => exact Except.noConfusion h
    | arr xs => exact Except.noConfusion h

/-- A successful `parseQuizPayload` comes from a successful item loop on some
container, and its question list is non-empty. -/
theorem parseQuizPayload_ok_inv (data : Json) (qs : List Question) (notes : List String)
    (h : parseQuizPayload data = .ok (qs, notes)) :
    (∃ raw, parseQuizItems 0 raw = .ok qs) ∧ qs ≠ [] := by
  unfold parseQuizPayload at h
  split at h
  · exact Except.noConfusion h
  · rename_i raw hraw
    split at h
    · exact Except.noConfusion h
    · rename_i questions hq
      split at h
      · exact Except.noConfusion h
      · rename_i hne
        cases h
        exact ⟨⟨raw, hq⟩, by simpa using hne⟩

/-- C3: every question in an accepted quiz payload has exactly 4 options and
an integer `correctIndex` in `[0, 3]`; concretely, an item with 3 options is
dropped, an item with 5 options is truncated to its first 4 (with
`correctIndex = 99` clamped to 3), and a non-coercible `correctIndex`
(`"abc"`) defaults to 0 (here on an `opts` item without a `question`, whose
text falls back to `"문제 3"`). -/
theorem c3_quiz_option_invariants :
    (∀ data qs notes, parseQuizPayload data = .ok (qs, notes) →
      ∀ q ∈ qs, q.options.length = 4 ∧ 0 ≤ q.correctIndex ∧ q.correctIndex ≤ 3) ∧
    parseQuizPayload (.obj [("questions", .arr [
        .obj [("question", .str "q1"),
              ("options", .arr [.str "a", .str "b", .str "c"]),
              ("correctIndex", .num 1)],
        .obj [("question", .str "q2"),
              ("options", .arr [.str "a", .str "b", .str "c", .str "d", .str "e"]),
              ("correctIndex", .num 99)],
        .obj [("opts", .arr [.str "a", .str "b", .str "c", .str "d"]),
              ("correctIndex", .str "abc")]])]) =
      .ok ([⟨.str "q2", [.str "a", .str "b", .str "c", .str "d"], 3, .str ""⟩,
            ⟨.str "문제 3", [.str "a", .str "b", .str "c", .str "d"], 0, .str ""⟩], []) := by
  constructor
  · intro data qs notes h q hq
    obtain ⟨⟨raw, hraw⟩, -⟩ := parseQuizPayload_ok_inv data qs notes h
    exact parseQuizItems_valid raw 0 qs hraw q hq
  · rfl

theorem c3_quiz_option_invariants_witness :
    ∀ q ∈ [Question.mk (.str "q2") [.str "a", .str "b", .str "c", .str "d"] 3 (.str ""),
           Question.mk (.str "문제 3") [.str "a", .str "b", .str "c", .str "d"] 0 (.str "")],
      q.options.length = 4 ∧ 0 ≤ q.correctIndex ∧ q.correctIndex ≤ 3 :=
  c3_quiz_option_invariants.1 (.obj [("questions", .arr [
        .obj [("question", .str "q1"),
              ("options", .arr [.str "a", .str "b", .str "c"]),
              ("correctIndex", .num 1)],
        .obj [("question", .str "q2"),
              ("options", .arr [.str "a", .str "b", .str "c", .str "d", .str "e"]),
              ("correctIndex", .num 99)],
        .obj [("opts", .arr [.str "a", .str "b", .str "c", .str "d"]),
              ("correctIndex", .str "abc")]])]) _ [] rfl

/-- C8: a successfully parsed quiz payload never has an empty question list —
if per-item filtering drops every item, `_parse_quiz_payload` raises a 500
and the whole request fails. -/
theorem c8_no_empty_question_list :
    ∀ data qs notes, parseQuizPayload data = .ok (qs, notes) → qs ≠ [] := by
  intro data qs notes h
  exact (parseQuizPayload_ok_inv data qs notes h).2

theorem c8_no_empty_question_list_witness :
    [Question.mk (.str "q") [.str "a", .str "b", .str "c", .str "d"] 1 (.str "")] ≠
      ([] : List Question) :=
  c8_no_empty_question_list
    (.obj [("questions", .arr [.obj [("question", .str "q"),
      ("options", .arr [.str "a", .str "b", .str "c", .str "d"]),
      ("correctIndex", .num 1)]])]) _ [] rfl

/-- An all-items-dropped payload (every item has fewer than 4 options) is
rejected with the 500 of `_parse_quiz_payload`, not returned empty. -/
example :
    parseQuizPayload (.obj [("questions", .arr [
      .obj [("question", .str "q1"), ("options", .arr [.str "a", .str "b", .str "c"]),
            ("correctIndex", .num 0)]])]) =
    .error (.http 500 (.str "생성된 문제를 찾을 수 없습니다.")) := rfl

/-! ### `normalize_text` is idempotent (claim C9) -/

theorem replaceNul_not_mem (l : List Char) : ∀ c ∈ replaceNul l, c ≠ '\x00' := by
  intro c hc
  rcases List.mem_map.1 hc with ⟨a, -, rfl⟩
  by_cases h : a = '\x00' <;> simp [h]

theorem replaceNul_id (l : List Char) (h : ∀ c ∈ l, c ≠ '\x00') : replaceNul l = l := by
  induction l with
  | nil => rfl
  | cons a l ih =>
    have ha : a ≠ '\x00' := h a (List.mem_cons_self a l)
    simp only [replaceNul, List.map_cons, if_neg ha]
    have := ih (fun c hc => h c (List.mem_cons_of_mem a hc))
    simpa [replaceNul] using this

theorem subCR_mem (b : Bool) (l : List Char) : ∀ c ∈ subCR b l, c = '\n' ∨ c ∈ l := by
  induction l generalizing b with
  | nil => intro c hc; cases hc
  | cons a l ih =>
    intro c hc
    simp only [subCR] at hc
    split at hc
    · split at hc
      · rcases ih true c hc with h | h
        · exact Or.inl h
        · exact Or.inr (List.mem_cons_of_mem a h)
      · rcases List.mem_cons.1 hc with rfl | hc
        · exact Or.inl rfl
        · rcases ih true c hc with h | h
          · exact Or.inl h
          · exact Or.inr (List.mem_cons_of_mem a h)
    · rcases List.mem_cons.1 hc with rfl | hc
      · exact Or.inr (List.mem_cons_self c l)
      · rcases ih false c hc with h | h
        · exact Or.inl h
        · exact Or.inr (List.mem_cons_of_mem a h)

theorem subCR_not_cr (b : Bool) (l : List Char) : ∀ c ∈ subCR b l, c ≠ '\r' := by
  induction l generalizing b with
  | nil => intro c hc; cases hc
  | cons a l ih =>
    intro c hc
    simp only [subCR] at hc
    split at hc
    · split at hc
      · exact ih true c hc
      · rcases List.mem_cons.1 hc with rfl | hc
        · decide
        · exact ih true c hc
    · rename_i ha
      rcases List.mem_cons.1 hc with rfl | hc
      · exact ha
      · exact ih false c hc

theorem subCR_id (b : Bool) (l : List Char) (h : ∀ c ∈ l, c ≠ '\r') : subCR b l = l := by
  induction l generalizing b with
  | nil => rfl
  | cons a l ih =>
    have ha : a ≠ '\r' := h a (List.mem_cons_self a l)
    simp only [subCR, if_neg ha]
    exact congrArg (a :: ·) (ih false (fun c hc => h c (List.mem_cons_of_mem a hc)))

theorem subLF_mem (cnt : Nat) (l : List Char) : ∀ c ∈ subLF cnt l, c ∈ l := by
  induction l generalizing cnt with
  | nil => intro c hc; cases hc
  | cons a l ih =>
    intro c hc
    simp only [subLF] at hc
    split at hc
    · rename_i ha
      split at hc
      · rcases List.mem_cons.1 hc with rfl | hc
        · exact ha ▸ List.mem_cons_self a l
        · exact List.mem_cons_of_mem a (ih _ c hc)
      · exact List.mem_cons_of_mem a (ih _ c hc)
    · rcases List.mem_cons.1 hc with rfl | hc
      · exact List.mem_cons_self c l
      · exact List.mem_cons_of_mem a (ih 0 c hc)

/-- The output invariant established by `re.sub(r"\n{3,}", "\n\n", ...)`:
reading the list with `cnt` newlines of the current run already seen, no run
ever reaches length 3. -/
def okLF : Nat → List Char → Prop
  | _, [] => True
  | cnt, c :: rest => if c = '\n' then cnt < 2 ∧ okLF (cnt + 1) rest else okLF 0 rest

theorem okLF_anti {c c' : Nat} {l : List Char} (hle : c' ≤ c) (h : okLF c l) : okLF c' l := by
  induction l generalizing c c' with
  | nil => trivial
  | cons a l ih =>
    simp only [okLF] at h ⊢
    split at h
    · rename_i ha
      rw [if_pos ha]
      exact ⟨lt_of_le_of_lt hle h.1, ih (Nat.succ_le_succ hle) h.2⟩
    · rename_i ha
      rw [if_neg ha]
      exact h

theorem okLF_append_left (a b : List Char) (c : Nat) (h : okLF c (a ++ b)) : okLF c a := by
  induction a generalizing c with
  | nil => trivial
  | cons x a ih =>
    simp only [List.cons_append, okLF] at h ⊢
    split at h
    · rename_i hx
      rw [if_pos hx]
      exact ⟨h.1, ih _ h.2⟩
    · rename_i hx
      rw [if_neg hx]
      exact ih _ h

theorem okLF_append_right (a b : List Char) (c : Nat) (h : okLF c (a ++ b)) : okLF 0 b := by
  induction a generalizing c with
  | nil => exact okLF_anti (Nat.zero_le c) h
  | cons x a ih =>
    simp only [List.cons_append, okLF] at h
    split at h
    · exact ih _ h.2
    · exact ih _ h

theorem subLF_ok (cnt : Nat) (l : List Char) : okLF (min cnt 2) (subLF cnt l) := by
  induction l generalizing cnt with
  | nil => trivial
  | cons a l ih =>
    simp only [subLF]
    split
    · rename_i ha
      split
      · rename_i hcnt
        simp only [okLF, if_pos ha]
        refine ⟨by omega, ?_⟩
        have := ih (cnt + 1)
        have hmin : min (cnt + 1) 2 = min cnt 2 + 1 := by omega
        rwa [hmin] at this
      · rename_i hcnt
        have := ih (cnt + 1)
        have hmin : min (cnt + 1) 2 = 2 := by omega
        have hmin2 : min cnt 2 = 2 := by omega
        rw [hmin] at this
        rw [hmin2]
        exact this
    · rename_i ha
      simp only [okLF, if_neg ha]
      have := ih 0
      simpa using this

theorem subLF_id (cnt : Nat) (l : List Char) (h : okLF cnt l) : subLF cnt l = l := by
  induction l generalizing cnt with
  | nil => rfl
  | cons a l ih =>
    simp only [okLF] at h
    simp only [subLF]
    split at h
    · rename_i ha
      subst ha
      rw [if_pos rfl, if_pos h.1]
      exact congrArg ('\n' :: ·) (ih _ h.2)
    · rename_i ha
      rw [if_neg ha]
      exact congrArg (a :: ·) (ih 0 h)

theorem pyStrip_eq_rdropWhile (l : List Char) :
    pyStrip l = List.rdropWhile isPyWs (l.dropWhile isPyWs) := rfl

theorem pyStrip_subset (l : List Char) : ∀ c ∈ pyStrip l, c ∈ l := by
  intro c hc
  rw [pyStrip_eq_rdropWhile] at hc
  exact (List.dropWhile_suffix isPyWs).sublist.subset
    ((List.rdropWhile_prefix isPyWs (l.dropWhile isPyWs)).sublist.subset hc)

theorem pyStrip_okLF {l : List Char} (h : okLF 0 l) : okLF 0 (pyStrip l) := by
  obtain ⟨t, ht⟩ : l.dropWhile isPyWs <:+ l := List.dropWhile_suffix isPyWs
  have hm : okLF 0 (l.dropWhile isPyWs) := by
    refine okLF_append_right t _ 0 ?_
    rw [ht]
    exact h
  obtain ⟨t2, ht2⟩ := List.rdropWhile_prefix isPyWs (l.dropWhile isPyWs)
  rw [pyStrip_eq_rdropWhile]
  refine okLF_append_left _ t2 0 ?_
  rw [ht2]
  exact hm

theorem dropWhile_head_false (p : Char → Bool) (l : List Char) (c : Char) (r : List Char)
    (h : l.dropWhile p = c :: r) : p c = false := by
  induction l with
  | nil => cases h
  | cons a l ih =>
    rw [List.dropWhile_cons] at h
    split at h
    · exact ih h
    · rename_i ha
      cases h
      simpa using ha

theorem pyStrip_idem (l : List Char) : pyStrip (pyStrip l) = pyStrip l := by
  have hd : List.dropWhile isPyWs (pyStrip l) = pyStrip l := by
    cases hr : pyStrip l with
    | nil => rfl
    | cons c r' =>
      have hpre : pyStrip l <+: l.dropWhile isPyWs := by
        rw [pyStrip_eq_rdropWhile]
        exact List.rdropWhile_prefix _ _
      rw [hr] at hpre
      obtain ⟨t2, ht2⟩ := hpre
      have hcfalse : isPyWs c = false :=
        dropWhile_head_false isPyWs l c (r' ++ t2) (by rw [← ht2]; rfl)
      simp [List.dropWhile_cons, hcfalse]
  calc pyStrip (pyStrip l)
      = List.rdropWhile isPyWs (List.dropWhile isPyWs (pyStrip l)) := rfl
    _ = List.rdropWhile isPyWs (pyStrip l) := by rw [hd]
    _ = List.rdropWhile isPyWs (List.rdropWhile isPyWs (l.dropWhile isPyWs)) := by
        rw [pyStrip_eq_rdropWhile]
    _ = List.rdropWhile isPyWs (l.dropWhile isPyWs) := List.rdropWhile_idempotent _ _
    _ = pyStrip l := rfl

/-- C9: `normalize_text` is idempotent — one pass of NUL replacement,
carriage-return collapsing, newline-run reduction and outer strip already
yields a fixed point, so applying `normalize_text` to its own output changes
nothing. -/
theorem c9_normalize_idempotent (s : String) :
    normalizeText (normalizeText s) = normalizeText s := by
  suffices h : normalizeTextL (normalizeTextL s.toList) = normalizeTextL s.toList by
    unfold normalizeText
    rw [List.toList_asString, h]
  set m := normalizeTextL s.toList with hm
  have hmem : ∀ c ∈ m, c ∈ subLF 0 (subCR false (replaceNul s.toList)) := by
    intro c hc
    exact pyStrip_subset _ c hc
  have hnonul : ∀ c ∈ m, c ≠ '\x00' := by
    intro c hc
    have h1 := subLF_mem _ _ c (hmem c hc)
    rcases subCR_mem _ _ c h1 with h | h
    · rw [h]; decide
    · exact replaceNul_not_mem _ c h
  have hnocr : ∀ c ∈ m, c ≠ '\r' := by
    intro c hc
    exact subCR_not_cr _ _ c (subLF_mem _ _ c (hmem c hc))
  have hok : okLF 0 m := by
    have h0 := subLF_ok 0 (subCR false (replaceNul s.toList))
    rw [hm]
    unfold normalizeTextL
    exact pyStrip_okLF (by simpa using h0)
  show normalizeTextL m = m
  unfold normalizeTextL
  rw [replaceNul_id m hnonul, subCR_id false m hnocr, subLF_id 0 m hok]
  have : pyStrip m = pyStrip (pyStrip (subLF 0 (subCR false (replaceNul s.toList)))) := by
    rw [hm]
    rfl
  rw [this, pyStrip_idem]
  rw [hm]
  rfl

/-! ### Cache hits and forced regeneration (claims C5, C7) -/

/-- C5: when a truthy persisted note exists and `force` is false,
`generate_learning_note` returns the stored record exactly as read, makes
zero remote generate calls, and performs no write to the note store. -/
theorem c5_cache_hit_no_side_effects (e : Env) (fileId : String) (windowSize : Nat)
    (file : Option (List Chunk)) (now : String) (j : Json) (hj : pyTruthy j = true) :
    generateLearningNote e fileId windowSize false (some j) file now =
      ⟨.ok j, 0, []⟩ := by
  unfold generateLearningNote
  have hhit : isCacheHit (some j) false = true := by
    simp [isCacheHit, hj]
  rw [if_pos hhit]
  rfl

theorem c5_cache_hit_no_side_effects_witness :
    generateLearningNote ⟨fun _ => .error "down", fun _ => none⟩ "file1" 3 false
      (some (.obj [("fileId", .str "file1"), ("markdown", .str "m")])) none "T" =
      ⟨.ok (.obj [("fileId", .str "file1"), ("markdown", .str "m")]), 0, []⟩ :=
  c5_cache_hit_no_side_effects _ "file1" 3 none "T" _ (by decide)

/-- A successful generation run produces exactly the record dict of
lines 240-249: some pages, some windows, the merged markdown, the preserved
or fresh `createdAt`, and `updatedAt = now`. -/
theorem glnCore_ok_shape (e : Env) (fileId : String) (windowSize : Nat)
    (existing : Option Json) (file : Option (List Chunk)) (now : String)
    (rec : Json) (k : Nat)
    (h : glnCore e fileId windowSize existing file now = (.ok rec, k)) :
    ∃ createdAt? pages windows,
      getCreatedAt existing = .ok createdAt? ∧
      rec = noteRecordJson fileId windowSize now createdAt? pages windows
        (mergeMarkdown windows) := by
  unfold glnCore at h
  split at h
  · simp at h
  · split at h
    · simp at h
    · split at h
      · simp at h
      · rename_i pages k1 hbp
        split at h
        · simp at h
        · split at h
          · simp at h
          · rename_i windows k2 hsw
            split at h
            · simp at h
            · rename_i createdAt? hca
              refine ⟨createdAt?, pages, windows, hca, ?_⟩
              simp only [Prod.mk.injEq, Except.ok.injEq] at h
              exact h.1.symm

/-- C7: when note generation runs with `force` set and a prior persisted
record exists (an object with a non-empty `createdAt` string), a successful
run's record keeps the prior `createdAt` and sets `updatedAt` to the current
time; when the clock has advanced past the prior `updatedAt`, the new
`updatedAt` is strictly later. -/
theorem c7_force_preserves_createdAt (e : Env) (fileId : String) (windowSize : Nat)
    (fs : List (String × Json)) (file : Option (List Chunk)) (now : String)
    (c u : String) (rec : Json)
    (hc : List.lookup "createdAt" fs = some (.str c)) (hcne : c ≠ "")
    (hu : List.lookup "updatedAt" fs = some (.str u)) (hlt : u < now)
    (hok : (generateLearningNote e fileId windowSize true (some (.obj fs)) file now).result =
      .ok rec) :
    jfield rec "createdAt" = some (.str c) ∧
    jfield rec "updatedAt" = some (.str now) ∧ u < now := by
  unfold generateLearningNote at hok
  have hmiss : isCacheHit (some (.obj fs)) true = false := by
    simp [isCacheHit]
  rw [if_neg (by simp [hmiss])] at hok
  have hcore : ∃ k, glnCore e fileId windowSize (some (.obj fs)) file now = (.ok rec, k) := by
    rcases hcg : glnCore e fileId windowSize (some (.obj fs)) file now with ⟨res, k⟩
    rw [hcg] at hok
    cases res with
    | error er => simp at hok
    | ok r =>
      simp only [Except.ok.injEq] at hok
      exact ⟨k, by rw [hok]⟩
  obtain ⟨k, hcg⟩ := hcore
  obtain ⟨createdAt?, pages, windows, hca, hrec⟩ :=
    glnCore_ok_shape e fileId windowSize (some (.obj fs)) file now rec k hcg
  have hfs : fs ≠ [] := by
    intro h0
    rw [h0] at hc
    cases hc
  have htruthy : pyTruthy (.obj fs) = true := by
    simp [pyTruthy, hfs]
  have hca2 : getCreatedAt (some (.obj fs)) = .ok (some (.str c)) := by
    simp [getCreatedAt, htruthy, hc]
  rw [hca2] at hca
  cases hca
  have hctruthy : pyTruthy (.str c) = true := by
    simp [pyTruthy, hcne]
  subst hrec
  refine ⟨?_, ?_, hlt⟩ <;>
    simp [jfield, noteRecordJson, hctruthy, List.lookup]

theorem c7_force_preserves_createdAt_witness :
    jfield ((generateLearningNote ⟨fun _ => .ok "ok", fun _ => some (.obj [])⟩ "f" 3 true
        (some (.obj [("fileId", .str "f"), ("createdAt", .str "2024-01-01"),
                     ("updatedAt", .str "2024-01-02")]))
        (some [⟨1, "Page 1", "hello"⟩]) "2024-01-03").result.toOption.getD Json.null)
      "createdAt" = some (.str "2024-01-01") ∧
    jfield ((generateLearningNote ⟨fun _ => .ok "ok", fun _ => some (.obj [])⟩ "f" 3 true
        (some (.obj [("fileId", .str "f"), ("createdAt", .str "2024-01-01"),
                     ("updatedAt", .str "2024-01-02")]))
        (some [⟨1, "Page 1", "hello"⟩]) "2024-01-03").result.toOption.getD Json.null)
      "updatedAt" = some (.str "2024-01-03") ∧
    ("2024-01-02" : String) < "2024-01-03" :=
  c7_force_preserves_createdAt ⟨fun _ => .ok "ok", fun _ => some (.obj [])⟩ "f" 3
    [("fileId", .str "f"), ("createdAt", .str "2024-01-01"), ("updatedAt", .str "2024-01-02")]
    (some [⟨1, "Page 1", "hello"⟩]) "2024-01-03" "2024-01-01" "2024-01-02" _
    rfl (by decide) rfl (by rw [String.lt_iff_toList_lt]; decide) rfl

/-! ### Failure policy of note generation (claim C4) -/

theorem summarizeSinglePage_fails_of_resp (e : Env)
    (hresp : ∀ k, ∃ m, e.resp k = .error m) (k : Nat) (label text : String) :
    ∃ er k', summarizeSinglePage e k label text = (.error er, k') := by
  obtain ⟨m, hm⟩ := hresp k
  refine ⟨.http 500 (.str ("Gemini 호출 실패: " ++ m)), k + 1, ?_⟩
  simp [summarizeSinglePage, generateWithGemini, hm]

theorem summarizeSinglePage_fails_of_loads (e : Env)
    (hl : ∀ s, e.loads s = none) (k : Nat) (label text : String) :
    ∃ er k', summarizeSinglePage e k label text = (.error er, k') := by
  unfold summarizeSinglePage generateWithGemini
  cases hr : e.resp k with
  | error m => exact ⟨_, _, rfl⟩
  | ok t =>
    by_cases ht : t = ""
    · simp only [ht, if_pos rfl]
      exact ⟨_, _, rfl⟩
    · simp only [if_neg ht, hl]
      exact ⟨_, _, rfl⟩

/-- If every per-page summarization attempt fails, the page-building loop can
only succeed by skipping every chunk (all texts empty). -/
theorem buildPagesLoop_fails (e : Env)
    (hsp : ∀ k label text, ∃ er k', summarizeSinglePage e k label text = (.error er, k')) :
    ∀ chunks k pages k', buildPagesLoop e k chunks = (.ok pages, k') → pages = [] := by
  intro chunks
  induction chunks with
  | nil =>
    intro k pages k' h
    simp only [buildPagesLoop, Prod.mk.injEq, Except.ok.injEq] at h
    exact h.1.symm
  | cons c rest ih =>
    intro k pages k' h
    simp only [buildPagesLoop] at h
    split at h
    · exact ih _ _ _ h
    · obtain ⟨er, k2, hsp'⟩ := hsp k c.label ((pyStripS c.text).take MAX_PAGE_PROMPT_CHARS)
      rw [hsp'] at h
      simp at h

/-- If every per-page summarization attempt fails, the whole generation path
raises (404 for a missing file, 400 for an empty or all-empty document, or
the summarization failure itself). -/
theorem glnCore_fails (e : Env)
    (hsp : ∀ k label text, ∃ er k', summarizeSinglePage e k label text = (.error er, k'))
    (fileId : String) (windowSize : Nat) (existing : Option Json)
    (file : Option (List Chunk)) (now : String) :
    ∃ er k, glnCore e fileId windowSize existing file now = (.error er, k) := by
  unfold glnCore
  cases file with
  | none => exact ⟨_, _, rfl⟩
  | some chunks =>
    by_cases hch : chunks.isEmpty
    · simp only [hch, if_pos rfl]
      exact ⟨_, _, rfl⟩
    · simp only [hch]
      rcases hbp : buildPagesLoop e 0 chunks with ⟨res, k1⟩
      cases res with
      | error er => exact ⟨er, k1, by simp⟩
      | ok pages =>
        have hpages : pages = [] := buildPagesLoop_fails e hsp chunks 0 pages k1 hbp
        subst hpages
        simp

/-- The `j`-th remote call returned non-empty text (the only way
`generate_with_gemini` does not raise). -/
def goodCall (e : Env) (j : Nat) : Prop :=
  ∃ t, e.resp j = .ok t ∧ t ≠ ""

theorem generateWithGemini_ok_good (e : Env) (k : Nat) (prompt raw : String) (k' : Nat)
    (h : generateWithGemini e k prompt = (.ok raw, k')) : k' = k + 1 ∧ goodCall e k := by
  unfold generateWithGemini at h
  rcases hr : e.resp k with m | t <;> rw [hr] at h <;> dsimp only at h
  · simp at h
  · by_cases ht : t = ""
    · rw [if_pos ht] at h
      simp at h
    · rw [if_neg ht] at h
      simp only [Prod.mk.injEq] at h
      exact ⟨h.2.symm, t, hr, ht⟩

theorem summarizeSinglePage_ok_good (e : Env) (k : Nat) (label text : String)
    (s : PageSummary) (k' : Nat)
    (h : summarizeSinglePage e k label text = (.ok s, k')) : k' = k + 1 ∧ goodCall e k := by
  unfold summarizeSinglePage at h
  rcases hg : generateWithGemini e k (buildPageSummaryPrompt label text) with ⟨res, kk⟩
  rw [hg] at h
  cases res with
  | error er => simp at h
  | ok raw =>
    dsimp only at h
    obtain ⟨hk, hgood⟩ := generateWithGemini_ok_good e k _ raw kk hg
    rcases hl : e.loads raw with _ | data <;> rw [hl] at h <;> dsimp only at h
    · simp at h
    · rcases hp : parsePageSummary data with er | summary <;> rw [hp] at h <;> dsimp only at h
      · simp at h
      · simp only [Prod.mk.injEq] at h
        exact ⟨h.2.symm.trans hk, hgood⟩

theorem buildPagesLoop_ok_good (e : Env) :
    ∀ chunks k pages k', buildPagesLoop e k chunks = (.ok pages, k') →
      k ≤ k' ∧ ∀ j, k ≤ j → j < k' → goodCall e j := by
  intro chunks
  induction chunks with
  | nil =>
    intro k pages k' h
    simp only [buildPagesLoop, Prod.mk.injEq] at h
    refine ⟨h.2.le, ?_⟩
    intro j h1 h2
    omega
  | cons c rest ih =>
    intro k pages k' h
    simp only [buildPagesLoop] at h
    split at h
    · exact ih _ _ _ h
    · rcases hsp : summarizeSinglePage e k c.label ((pyStripS c.text).take MAX_PAGE_PROMPT_CHARS)
        with ⟨res, k1⟩
      rw [hsp] at h
      cases res with
      | error er => simp at h
      | ok s =>
        dsimp only at h
        obtain ⟨hk1, hgood⟩ := summarizeSinglePage_ok_good e k _ _ s k1 hsp
        rcases hbp : buildPagesLoop e k1 rest with ⟨res2, k2⟩
        rw [hbp] at h
        cases res2 with
        | error er => simp at h
        | ok pages2 =>
          simp only [Prod.mk.injEq] at h
          obtain ⟨hle, hall⟩ := ih _ _ _ hbp
          subst hk1
          refine ⟨by omega, ?_⟩
          intro j h1 h2
          by_cases hj : j = k
          · subst hj
            exact hgood
          · exact hall j (by omega) (by omega)

theorem windowLoop_ok_good (e : Env) (pages : List NotePage) (n left right : Nat) :
    ∀ idxs k ws seen out k',
      windowLoop e pages n left right k ws seen idxs = (.ok out, k') →
      k ≤ k' ∧ ∀ j, k ≤ j → j < k' → goodCall e j := by
  intro idxs
  induction idxs with
  | nil =>
    intro k ws seen out k' h
    simp only [windowLoop, Prod.mk.injEq] at h
    refine ⟨h.2.le, ?_⟩
    intro j h1 h2
    omega
  | cons idx rest ih =>
    intro k ws seen out k' h
    simp only [windowLoop] at h
    split at h
    · exact ih _ _ _ _ _ h
    · split at h
      · exact ih _ _ _ _ _ h
      · split at h
        · simp at h
        · rename_i p0 tl hwp
          rcases hg : generateWithGemini e k
              (buildWindowPrompt ((pages.drop (idx - left)).take (min n (idx + right + 1) - (idx - left))))
            with ⟨res, k1⟩
          rw [hg] at h
          cases res with
          | error er => simp at h
          | ok raw =>
            obtain ⟨hk1, hgood⟩ := generateWithGemini_ok_good e k _ raw k1 hg
            obtain ⟨hle, hall⟩ := ih _ _ _ _ _ h
            subst hk1
            refine ⟨by omega, ?_⟩
            intro j h1 h2
            by_cases hj : j = k
            · subst hj
              exact hgood
            · exact hall j (by omega) h2

theorem summarizeWindows_ok_good (e : Env) (k : Nat) (pages : List NotePage)
    (windowSize : Nat) (out : List Window) (k' : Nat)
    (h : summarizeWindows e k pages windowSize = (.ok out, k')) :
    k ≤ k' ∧ ∀ j, k ≤ j → j < k' → goodCall e j := by
  unfold summarizeWindows at h
  split at h
  · simp only [Prod.mk.injEq] at h
    refine ⟨h.2.le, ?_⟩
    intro j h1 h2
    omega
  · dsimp only at h
    rcases hwl : windowLoop e pages pages.length (max 1 (min windowSize pages.length) / 2)
        (max 1 (min windowSize pages.length) - max 1 (min windowSize pages.length) / 2 - 1)
        k [] [] (List.range pages.length) with ⟨res, k1⟩
    rw [hwl] at h
    cases res with
    | error er => simp at h
    | ok ws =>
      simp only [Prod.mk.injEq] at h
      obtain ⟨hle, hall⟩ := windowLoop_ok_good e pages _ _ _ _ _ _ _ _ _ hwl
      exact ⟨h.2 ▸ hle, fun j h1 h2 => hall j h1 (h.2 ▸ h2)⟩

theorem glnCore_ok_good (e : Env) (fileId : String) (windowSize : Nat)
    (existing : Option Json) (file : Option (List Chunk)) (now : String)
    (rec : Json) (k : Nat)
    (h : glnCore e fileId windowSize existing file now = (.ok rec, k)) :
    ∀ j, j < k → goodCall e j := by
  unfold glnCore at h
  split at h
  · simp at h
  · split at h
    · simp at h
    · split at h
      · simp at h
      · rename_i pages k1 hbp
        split at h
        · simp at h
        · split at h
          · simp at h
          · rename_i windows k2 hsw
            split at h
            · simp at h
            · simp only [Prod.mk.injEq] at h
              obtain ⟨hle1, hall1⟩ := buildPagesLoop_ok_good e _ 0 pages k1 hbp
              obtain ⟨hle2, hall2⟩ := summarizeWindows_ok_good e k1 pages windowSize windows k2 hsw
              intro j hj
              rw [← h.2] at hj
              by_cases hjk : j < k1
              · exact hall1 j (Nat.zero_le j) hjk
              · exact hall2 j (by omega) hj

/-- C4: within one `generate_learning_note` request, (1) any raised error
leaves the note store untouched (no write happens), (2) a returned record is
either the cache hit (no write) or exactly the one record saved for this
fileId, (3) if every remote call raises, a non-cache-hit request aborts with
an error, (4) if every remote response fails JSON decoding (e.g. a per-page
summary that is not valid JSON), a non-cache-hit request aborts with an
error, and (5) a successful request implies every remote call it made
returned non-empty text — the save happens only after every page summary and
window merge has succeeded. -/
theorem c4_no_partial_persistence (e : Env) (fileId : String) (windowSize : Nat)
    (force : Bool) (existing : Option Json) (file : Option (List Chunk)) (now : String) :
    (∀ er, (generateLearningNote e fileId windowSize force existing file now).result = .error er →
      (generateLearningNote e fileId windowSize force existing file now).writes = []) ∧
    (∀ rec, (generateLearningNote e fileId windowSize force existing file now).result = .ok rec →
      (generateLearningNote e fileId windowSize force existing file now).writes = [] ∨
      (generateLearningNote e fileId windowSize force existing file now).writes =
        [(fileId, rec)]) ∧
    ((∀ k, ∃ m, e.resp k = .error m) → isCacheHit existing force = false →
      ∃ er, (generateLearningNote e fileId windowSize force existing file now).result =
        .error er) ∧
    ((∀ s, e.loads s = none) → isCacheHit existing force = false →
      ∃ er, (generateLearningNote e fileId windowSize force existing file now).result =
        .error er) ∧
    (∀ rec, (generateLearningNote e fileId windowSize force existing file now).result = .ok rec →
      ∀ j, j < (generateLearningNote e fileId windowSize force existing file now).calls →
        goodCall e j) := by
  by_cases hhit : isCacheHit existing force = true
  · unfold generateLearningNote
    rw [if_pos hhit]
    refine ⟨?_, ?_, ?_, ?_, ?_⟩
    · intro er h
      cases h
    · intro rec h
      exact Or.inl rfl
    · intro _ hfalse
      rw [hhit] at hfalse
      cases hfalse
    · intro _ hfalse
      rw [hhit] at hfalse
      cases hfalse
    · intro rec h j hj
      simp at hj
  · have hhit' : ¬ isCacheHit existing force = true := hhit
    unfold generateLearningNote
    rw [if_neg hhit']
    rcases hcg : glnCore e fileId windowSize existing file now with ⟨res, kk⟩
    cases res with
    | error er0 =>
      refine ⟨?_, ?_, ?_, ?_, ?_⟩
      · intro er h
        rfl
      · intro rec h
        cases h
      · intro _ _
        exact ⟨er0, rfl⟩
      · intro _ _
        exact ⟨er0, rfl⟩
      · intro rec h
        cases h
    | ok rec0 =>
      refine ⟨?_, ?_, ?_, ?_, ?_⟩
      · intro er h
        cases h
      · intro rec h
        rw [show (⟨.ok rec0, kk, [(fileId, rec0)]⟩ : RunResult).result = .ok rec0 from rfl,
          Except.ok.injEq] at h
        subst h
        exact Or.inr rfl
      · intro hresp _
        obtain ⟨er, k, hfail⟩ := glnCore_fails e
          (fun k label text => summarizeSinglePage_fails_of_resp e hresp k label text)
          fileId windowSize existing file now
        rw [hcg] at hfail
        simp at hfail
      · intro hloads _
        obtain ⟨er, k, hfail⟩ := glnCore_fails e
          (fun k label text => summarizeSinglePage_fails_of_loads e hloads k label text)
          fileId windowSize existing file now
        rw [hcg] at hfail
        simp at hfail
      · intro rec h j hj
        exact glnCore_ok_good e fileId windowSize existing file now rec0 kk hcg j hj

theorem c4_no_partial_persistence_witness :
    ∃ er, (generateLearningNote ⟨fun _ => .error "transport failure", fun _ => none⟩
      "f" 3 false none (some [⟨1, "Page 1", "hello"⟩]) "T").result = .error er :=
  (c4_no_partial_persistence ⟨fun _ => .error "transport failure", fun _ => none⟩
      "f" 3 false none (some [⟨1, "Page 1", "hello"⟩]) "T").2.2.1
    (fun k => ⟨"transport failure", rfl⟩) rfl

/-! ### Window contiguity (claim C6) -/

theorem range'_drop (a n k : Nat) : (List.range' a n).drop k = List.range' (a + k) (n - k) := by
  induction n generalizing a k with
  | zero => simp
  | succ n ih =>
    cases k with
    | zero => simp
    | succ k =>
      rw [List.range'_succ, List.drop_succ_cons, ih]
      congr 1 <;> omega

theorem range'_take (a n k : Nat) : (List.range' a n).take k = List.range' a (min k n) := by
  induction n generalizing a k with
  | zero => simp
  | succ n ih =>
    cases k with
    | zero => simp
    | succ k =>
      rw [List.range'_succ, List.take_succ_cons, ih]
      have : min (k + 1) (n + 1) = min k n + 1 := by omega
      rw [this, List.range'_succ]

theorem chain'_succ_range' (a n : Nat) :
    List.Chain' (fun x y => y = x + 1) (List.range' a n) := by
  induction n generalizing a with
  | zero => simp
  | succ n ih =>
    rw [List.range'_succ]
    cases n with
    | zero => simp
    | succ m =>
      rw [List.range'_succ, List.chain'_cons]
      refine ⟨rfl, ?_⟩
      rw [← List.range'_succ]
      exact ih (a + 1)

/-- When the summarized pages carry contiguous 1-based indexes, the index
list of any slice `pages[s:s+t]` is itself a contiguous `range'`. -/
theorem slice_indexes_range' (pages : List NotePage)
    (hidx : pages.map (fun p => p.index) = List.range' 1 pages.length) (s t : Nat) :
    ((pages.drop s).take t).map (fun p => p.index) =
      List.range' (1 + s) (min t (pages.length - s)) := by
  rw [List.map_take, List.map_drop, hidx, range'_drop, range'_take]

theorem mem_insertWindow (w x : Window) (l : List Window) :
    x ∈ insertWindow w l ↔ x = w ∨ x ∈ l := by
  induction l with
  | nil => simp [insertWindow]
  | cons y l ih =>
    simp only [insertWindow]
    split
    · simp only [List.mem_cons, ih]
      tauto
    · simp only [List.mem_cons]

theorem mem_sortWindows (x : Window) (l : List Window) : x ∈ sortWindows l ↔ x ∈ l := by
  induction l with
  | nil => simp [sortWindows]
  | cons w l ih =>
    simp [sortWindows, mem_insertWindow, ih]

theorem windowLoop_chain (e : Env) (pages : List NotePage) (n left right : Nat)
    (hidx : pages.map (fun p => p.index) = List.range' 1 pages.length) :
    ∀ idxs k ws seen out k',
      (∀ w ∈ ws, List.Chain' (fun a b => b = a + 1) w.pageIndexes) →
      windowLoop e pages n left right k ws seen idxs = (.ok out, k') →
      ∀ w ∈ out, List.Chain' (fun a b => b = a + 1) w.pageIndexes := by
  intro idxs
  induction idxs with
  | nil =>
    intro k ws seen out k' hws h
    simp only [windowLoop, Prod.mk.injEq, Except.ok.injEq] at h
    rw [← h.1]
    exact hws
  | cons idx rest ih =>
    intro k ws seen out k' hws h
    simp only [windowLoop] at h
    split at h
    · exact ih _ _ _ _ _ hws h
    · split at h
      · exact ih _ _ _ _ _ hws h
      · split at h
        · simp at h
        · rename_i p0 tl hwp
          rcases hg : generateWithGemini e k
              (buildWindowPrompt ((pages.drop (idx - left)).take
                (min n (idx + right + 1) - (idx - left))))
            with ⟨res, k1⟩
          rw [hg] at h
          cases res with
          | error er => simp at h
          | ok raw =>
            refine ih _ _ _ _ _ ?_ h
            intro w hw
            rcases List.mem_append.1 hw with hw | hw
            · exact hws w hw
            · rcases List.mem_singleton.1 hw with rfl
              show List.Chain' (fun a b => b = a + 1)
                (((pages.drop (idx - left)).take
                  (min n (idx + right + 1) - (idx - left))).map (fun p => p.index))
              rw [slice_indexes_range' pages hidx]
              exact chain'_succ_range' _ _

/-- C6 counterexample: a document whose middle page has whitespace-only text
(dropped by the page loop) produces a learning note whose second window has
`pageIndexes = [1, 3]` — not a run of consecutive page indexes. -/
theorem c6_counterexample :
    recordWindowIndexes ((generateLearningNote ⟨fun _ => .ok "md", fun _ => some (.obj [])⟩
        "f" 3 false none
        (some [⟨1, "Page 1", "a"⟩, ⟨2, "Page 2", " "⟩, ⟨3, "Page 3", "b"⟩])
        "T").result.toOption.getD Json.null) = some [[1], [1, 3]] ∧
      ¬ consecRun [1, 3] := by
  constructor
  · rfl
  · intro h
    unfold consecRun at h
    have h' : (3 : Int) = 1 + 1 := (List.chain'_cons.mp h).1
    omega

/-- C6 amended: every emitted window merges a contiguous sub-range of the
*summarized* pages sequence (chunks whose stripped text is empty are dropped
before windowing); whenever the summarized pages carry contiguous 1-based
indexes — i.e. no page of the document was dropped — every window's
`pageIndexes` is a run of consecutive page indexes. -/
theorem c6_amended (e : Env) (k : Nat) (pages : List NotePage) (windowSize : Nat)
    (out : List Window) (k' : Nat)
    (hidx : pages.map (fun p => p.index) = List.range' 1 pages.length)
    (h : summarizeWindows e k pages windowSize = (.ok out, k')) :
    ∀ w ∈ out, List.Chain' (fun a b => b = a + 1) w.pageIndexes := by
  unfold summarizeWindows at h
  split at h
  · simp only [Prod.mk.injEq, Except.ok.injEq] at h
    rw [← h.1]
    intro w hw
    cases hw
  · dsimp only at h
    rcases hwl : windowLoop e pages pages.length (max 1 (min windowSize pages.length) / 2)
        (max 1 (min windowSize pages.length) - max 1 (min windowSize pages.length) / 2 - 1)
        k [] [] (List.range pages.length) with ⟨res, k1⟩
    rw [hwl] at h
    cases res with
    | error er => simp at h
    | ok ws =>
      simp only [Prod.mk.injEq, Except.ok.injEq] at h
      intro w hw
      rw [← h.1] at hw
      exact windowLoop_chain e pages _ _ _ hidx _ _ _ _ _ _
        (fun w hw => absurd hw (List.not_mem_nil w)) hwl w ((mem_sortWindows w ws).1 hw)

theorem c6_amended_witness :
    List.Chain' (fun a b => b = a + 1)
      (((summarizeWindows ⟨fun _ => .ok "md", fun _ => some (.obj [])⟩ 0
          [⟨1, "Page 1", "a", ⟨"", [], ""⟩⟩, ⟨2, "Page 2", "b", ⟨"", [], ""⟩⟩]
          3).1.toOption.getD []).get ⟨1, by decide⟩).pageIndexes :=
  c6_amended ⟨fun _ => .ok "md", fun _ => some (.obj [])⟩ 0
    [⟨1, "Page 1", "a", ⟨"", [], ""⟩⟩, ⟨2, "Page 2", "b", ⟨"", [], ""⟩⟩] 3 _ _
    rfl rfl _ (List.get_mem _ _ _)

/-! ### `LearningNoteStorage.read` error behaviour (claim C10) -/

/-- C10 counterexample: a stored note file whose bytes are not valid UTF-8
makes `read` raise — `read_text(encoding="utf-8")` throws
`UnicodeDecodeError`, which is a `ValueError` and is caught by neither the
`json.JSONDecodeError` nor the `OSError` clause of the `except`. -/
theorem c10_counterexample :
    storageRead (fun _ => none) .badUtf8 = .error .unicodeDecodeError := rfl

/-- C10 amended: except for a stored file whose bytes are not valid UTF-8
(where `UnicodeDecodeError` propagates), `LearningNoteStorage.read` never
raises: it returns `None` when the note file is missing, when reading it
fails with an `OSError`, and when its text is not valid JSON — so such a
corrupt note is treated like an absent one, and a subsequent successful
generation (which then sees no prior record) stamps `createdAt` with the
current time, losing the original `createdAt`. -/
theorem c10_amended (loads : String → Option Json) (st : NoteFileState)
    (hst : st ≠ .badUtf8) :
    (∃ v, storageRead loads st = .ok v) ∧
    (st = .missing ∨ st = .osError → storageRead loads st = .ok none) ∧
    (∀ t, st = .content t → loads t = none → storageRead loads st = .ok none) ∧
    (∀ e fileId windowSize file now rec k,
      glnCore e fileId windowSize none file now = (.ok rec, k) →
      jfield rec "createdAt" = some (.str now)) := by
  refine ⟨?_, ?_, ?_, ?_⟩
  · cases st with
    | missing => exact ⟨none, rfl⟩
    | osError => exact ⟨none, rfl⟩
    | badUtf8 => exact absurd rfl hst
    | content t =>
      cases hl : loads t with
      | none => exact ⟨none, by simp [storageRead, hl]⟩
      | some v => exact ⟨some v, by simp [storageRead, hl]⟩
  · intro h
    rcases h with rfl | rfl <;> rfl
  · intro t ht hl
    subst ht
    simp [storageRead, hl]
  · intro e fileId windowSize file now rec k h
    obtain ⟨createdAt?, pages, windows, hca, hrec⟩ :=
      glnCore_ok_shape e fileId windowSize none file now rec k h
    have : createdAt? = none := by
      simpa [getCreatedAt] using hca.symm
    subst this
    subst hrec
    simp [jfield, noteRecordJson, List.lookup]

theorem c10_amended_witness :
    (∃ v, storageRead (fun _ => none) .missing = .ok v) ∧
    (NoteFileState.missing = .missing ∨ NoteFileState.missing = .osError →
      storageRead (fun _ => none) .missing = .ok none) ∧
    (∀ t, NoteFileState.missing = .content t → (fun _ => none : String → Option Json) t = none →
      storageRead (fun _ => none) .missing = .ok none) ∧
    (∀ e fileId windowSize file now rec k,
      glnCore e fileId windowSize none file now = (.ok rec, k) →
      jfield rec "createdAt" = some (.str now)) :=
  c10_amended (fun _ => none) .missing (fun h => NoteFileState.noConfusion h)
